import Mathlib

/-!
Verification development for the EMBer training/evaluation orchestration code.

The Lean definitions below are shallow embeddings of the Python source files
src/lit_cli.py, src/modules/mmtsmatcher.py, src/datamodules/alidatamodule.py
and src/datamodules/wdcdatamodule.py.  Python strings are modelled as Lean
strings (or lists of characters where inductive reasoning is needed), Python
dicts as association lists with Python's insertion-order update semantics,
fallible Python code as Except values over an error type mirroring the Python
exception classes that the embedded code can actually raise.
-/

/-! ## Python string primitives

Model of Python str.split(sep) and sep.join(parts) on lists of characters,
used by serialize_pv_pairs (src/datamodules/alidatamodule.py lines 48-49).
str.split(sep) with a nonempty separator scans left to right, cutting at each
non-overlapping occurrence of sep and keeping empty chunks. -/

/-- Locate the first occurrence of sep: returns (chars before it, chars after
it), or none when sep does not occur. -/
def findSep (sep : List Char) : List Char → Option (List Char × List Char)
  | [] => none
  | c :: cs =>
    if List.isPrefixOf sep (c :: cs) then some ([], List.drop sep.length (c :: cs))
    else
      match findSep sep cs with
      | none => none
      | some (b, a) => some (c :: b, a)

/-- Fuelled worker for Python str.split: cut at each occurrence of sep.
For a nonempty separator each cut consumes at least one character, so fuel
equal to the input length plus one always suffices. -/
def pySplitFuel (sep : List Char) : Nat → List Char → List (List Char)
  | 0, l => [l]
  | fuel + 1, l =>
    match findSep sep l with
    | none => [l]
    | some (b, a) => b :: pySplitFuel sep fuel a

/-- Python str.split(sep) for a nonempty separator. -/
def pySplit (sep l : List Char) : List (List Char) :=
  pySplitFuel sep (l.length + 1) l

/-- Python sep.join(parts). -/
def pyJoin (sep : List Char) : List (List Char) → List Char
  | [] => []
  | [p] => p
  | p :: q :: rest => p ++ sep ++ pyJoin sep (q :: rest)

/-- The pair delimiter of encoded attribute-pair strings. -/
def pairSep : List Char := [ '#', ';', '#']

/-- The key/value delimiter of encoded attribute-pair strings. -/
def kvSep : List Char := [ '#', ':', '#']

/-- serialize_pv_pairs (src/datamodules/alidatamodule.py lines 48-49):
" ".join([" ".join(p.split("#:#")) for p in pv_pairs.split("#;#")]). -/
def serialize_pv_pairs (pv_pairs : String) : String :=
  String.mk
    (pyJoin [ ' ']
      (List.map (fun p => pyJoin [ ' '] (pySplit kvSep p))
        (pySplit pairSep pv_pairs.toList)))

theorem pySplitFuel_ne_nil (sep : List Char) (fuel : Nat) (l : List Char) :
    pySplitFuel sep fuel l ≠ [] := by
  cases fuel with
  | zero => simp [pySplitFuel]
  | succ n =>
    simp only [pySplitFuel]
    cases findSep sep l with
    | none => simp
    | some p => simp

theorem pySplit_ne_nil (sep l : List Char) : pySplit sep l ≠ [] :=
  pySplitFuel_ne_nil _ _ _

theorem pyJoin_append (sep : List Char) (p q : List (List Char))
    (hp : p ≠ []) (hq : q ≠ []) :
    pyJoin sep (p ++ q) = pyJoin sep p ++ sep ++ pyJoin sep q := by
  induction p with
  | nil => exact absurd rfl hp
  | cons p0 pr ih =>
    cases pr with
    | nil =>
      cases q with
      | nil => exact absurd rfl hq
      | cons q0 qr => simp [pyJoin]
    | cons p1 prr =>
      have h1 : p1 :: prr ≠ [] := by simp
      calc pyJoin sep ((p0 :: p1 :: prr) ++ q)
          = p0 ++ sep ++ pyJoin sep ((p1 :: prr) ++ q) := by simp [pyJoin]
        _ = p0 ++ sep ++ (pyJoin sep (p1 :: prr) ++ sep ++ pyJoin sep q) := by
            rw [ih h1]
        _ = pyJoin sep (p0 :: p1 :: prr) ++ sep ++ pyJoin sep q := by
            simp [pyJoin]

/-- Joining with a separator the separator-joins of nonempty groups is the
same as one flat separator-join: " ".join(map(" ".join, gs)) =
" ".join(concat gs) whenever every group is a nonempty list. -/
theorem pyJoin_flatten (sep : List Char) (parts : List (List (List Char)))
    (h : ∀ p ∈ parts, p ≠ []) :
    pyJoin sep (parts.map (pyJoin sep)) = pyJoin sep parts.flatten := by
  induction parts with
  | nil => simp [pyJoin]
  | cons p rest ih =>
    cases rest with
    | nil => simp [pyJoin]
    | cons q rs =>
      have hp : p ≠ [] := h p (by simp)
      have hq : q ≠ [] := h q (by simp)
      have hrest : ∀ x ∈ q :: rs, x ≠ [] := fun x hx => h x (by simp [hx])
      have hflat : (q :: rs).flatten ≠ [] := by
        cases q with
        | nil => exact absurd rfl hq
        | cons c cs => simp
      calc pyJoin sep ((p :: q :: rs).map (pyJoin sep))
          = pyJoin sep p ++ sep ++ pyJoin sep ((q :: rs).map (pyJoin sep)) := by
            simp [pyJoin]
        _ = pyJoin sep p ++ sep ++ pyJoin sep (q :: rs).flatten := by
            rw [ih hrest]
        _ = pyJoin sep (p ++ (q :: rs).flatten) := by
            rw [pyJoin_append sep p _ hp hflat]
        _ = pyJoin sep ((p :: q :: rs)).flatten := by simp

/-- C9: for every double-delimited attribute-pair string, serialize_pv_pairs
re-joins the key and value of each pair with a single space and the pairs with
a single space, preserving order: it equals the single-space join of the flat
ordered list of key/value segments obtained by splitting on the pair delimiter
and then on the key/value delimiter.  In particular the encoded string
k1#:#v1#;#k2#:#v2 yields k1 v1 k2 v2. -/
theorem serialize_pv_pairs_spec :
    (∀ s : String,
      serialize_pv_pairs s =
        String.mk
          (pyJoin [ ' ']
            (List.flatten
              (List.map (fun p => pySplit kvSep p) (pySplit pairSep s.toList))))) ∧
    serialize_pv_pairs "k1#:#v1#;#k2#:#v2" = "k1 v1 k2 v2" := by
  constructor
  · intro s
    unfold serialize_pv_pairs
    congr 1
    have h : ∀ p ∈ List.map (fun p => pySplit kvSep p) (pySplit pairSep s.toList),
        p ≠ [] := by
      intro p hp
      rcases List.mem_map.1 hp with ⟨q, _, rfl⟩
      exact pySplit_ne_nil _ _
    have := pyJoin_flatten [ ' ']
      (List.map (fun p => pySplit kvSep p) (pySplit pairSep s.toList)) h
    rw [List.map_map] at this
    exact this
  · decide

/-! ## Python dicts and collections.ChainMap

after_fit (src/lit_cli.py line 117) merges the validation and test result
mappings with results = dict(ChainMap(*val_results, *test_results)).
A Python dict is modelled as an association list with unique keys, updated
with Python's semantics: assignment to a present key overwrites in place,
assignment to an absent key appends.  ChainMap lookup searches the underlying
mappings in order and returns the value from the first mapping containing the
key; iterating a ChainMap iterates the keys of the dict obtained by updating
an empty dict with the mappings in reverse order; dict(chainmap) builds a dict
from those keys with the values the ChainMap lookup returns. -/

/-- Python d[k] on a dict modelled as an association list. -/
def dictGet {α : Type} (d : List (String × α)) (k : String) : Option α :=
  match d with
  | [] => none
  | (k1, v) :: rest => if k1 = k then some v else dictGet rest k

/-- Python d[k] = v: overwrite in place when the key is present, append
otherwise. -/
def dictSet {α : Type} (d : List (String × α)) (k : String) (v : α) :
    List (String × α) :=
  match d with
  | [] => [(k, v)]
  | (k1, v1) :: rest =>
    if k1 = k then (k1, v) :: rest else (k1, v1) :: dictSet rest k v

/-- ChainMap lookup: the first underlying mapping containing the key wins. -/
def chainMapGet {α : Type} (maps : List (List (String × α))) (k : String) :
    Option α :=
  match maps with
  | [] => none
  | m :: rest =>
    match dictGet m k with
    | some v => some v
    | none => chainMapGet rest k

/-- Python d.update(m): assign every key/value of m into d in order. -/
def dictUpdate {α : Type} (d m : List (String × α)) : List (String × α) :=
  m.foldl (fun d kv => dictSet d kv.1 kv.2) d

/-- The dict over which ChainMap.iter iterates: an empty dict updated with
the underlying mappings in reverse order. -/
def chainMapIterDict {α : Type} (maps : List (List (String × α))) :
    List (String × α) :=
  maps.reverse.foldl dictUpdate []

/-- dict(chainmap): for each key the ChainMap yields, assign the value the
ChainMap lookup returns. -/
def pyDictOfChainMap {α : Type} (maps : List (List (String × α))) :
    List (String × α) :=
  (chainMapIterDict maps).foldl
    (fun d kv =>
      match chainMapGet maps kv.1 with
      | some v => dictSet d kv.1 v
      | none => d) []

/-- after_fit results merge (src/lit_cli.py line 117):
results = dict(ChainMap(*val_results, *test_results)). -/
def afterFitResults {α : Type} (val_results test_results : List (List (String × α))) :
    List (String × α) :=
  pyDictOfChainMap (val_results ++ test_results)

theorem dictGet_dictSet {α : Type} (d : List (String × α)) (k k2 : String) (v : α) :
    dictGet (dictSet d k v) k2 = if k = k2 then some v else dictGet d k2 := by
  induction d with
  | nil => simp [dictSet, dictGet]
  | cons kv rest ih =>
    obtain ⟨k1, v1⟩ := kv
    by_cases h1 : k1 = k
    · subst h1
      by_cases h2 : k1 = k2 <;> simp [dictSet, dictGet, h2]
    · by_cases h2 : k1 = k2
      · subst h2
        have : ¬ k = k1 := fun h => h1 h.symm
        simp [dictSet, dictGet, h1, this]
      · simp [dictSet, dictGet, h1, h2, ih]

theorem dictGet_isSome_iff_mem {α : Type} (d : List (String × α)) (k : String) :
    (dictGet d k).isSome ↔ k ∈ d.map Prod.fst := by
  induction d with
  | nil => simp [dictGet]
  | cons kv rest ih =>
    obtain ⟨k1, v1⟩ := kv
    by_cases h : k1 = k
    · subst h; simp [dictGet]
    · have h2 : ¬ k = k1 := fun hh => h hh.symm
      simp [dictGet, h, h2, ih]

theorem dictGet_dictUpdate_isSome {α : Type} (m d : List (String × α)) (k : String) :
    (dictGet (dictUpdate d m) k).isSome ↔
      (dictGet d k).isSome ∨ (dictGet m k).isSome := by
  induction m generalizing d with
  | nil => simp [dictUpdate, dictGet]
  | cons kv rest ih =>
    obtain ⟨k1, v1⟩ := kv
    have step : dictUpdate d ((k1, v1) :: rest) = dictUpdate (dictSet d k1 v1) rest := by
      simp [dictUpdate]
    rw [step, ih]
    by_cases h : k1 = k
    · subst h; simp [dictGet_dictSet, dictGet]
    · simp [dictGet_dictSet, dictGet, h]

theorem chainMapGet_isSome_iff {α : Type} (maps : List (List (String × α))) (k : String) :
    (chainMapGet maps k).isSome ↔ ∃ m ∈ maps, (dictGet m k).isSome := by
  induction maps with
  | nil => simp [chainMapGet]
  | cons m rest ih =>
    simp only [chainMapGet]
    cases h : dictGet m k with
    | some v => simp [List.exists_mem_cons_iff, h]
    | none => simp [List.exists_mem_cons_iff, h, ih]

theorem chainMapIterDict_isSome {α : Type} (maps : List (List (String × α))) (k : String) :
    (dictGet (chainMapIterDict maps) k).isSome ↔ (chainMapGet maps k).isSome := by
  have main : ∀ (ms : List (List (String × α))) (d : List (String × α)),
      (dictGet (ms.foldl dictUpdate d) k).isSome ↔
        (dictGet d k).isSome ∨ ∃ m ∈ ms, (dictGet m k).isSome := by
    intro ms
    induction ms with
    | nil => simp
    | cons m rest ih =>
      intro d
      simp only [List.foldl_cons]
      rw [ih, dictGet_dictUpdate_isSome]
      simp [List.exists_mem_cons_iff, or_assoc]
  rw [chainMapIterDict, main, chainMapGet_isSome_iff]
  simp [dictGet]

theorem pyDictFold_get {α : Type} (maps : List (List (String × α)))
    (kvs d : List (String × α)) (k : String) :
    dictGet
      (kvs.foldl
        (fun d kv =>
          match chainMapGet maps kv.1 with
          | some v => dictSet d kv.1 v
          | none => d) d) k =
      if k ∈ kvs.map Prod.fst ∧ (chainMapGet maps k).isSome
      then chainMapGet maps k
      else dictGet d k := by
  induction kvs generalizing d with
  | nil => simp
  | cons kv rest ih =>
    simp only [List.foldl_cons]
    rw [ih]
    by_cases hk : kv.1 = k
    · subst hk
      cases h : chainMapGet maps kv.1 with
      | some v =>
        by_cases hmem : kv.1 ∈ rest.map Prod.fst
        · simp [hmem, h]
        · simp [hmem, h, dictGet_dictSet]
      | none => simp [h]
    · have hk2 : ¬ k = kv.1 := fun hh => hk hh.symm
      cases h : chainMapGet maps kv.1 with
      | some v =>
        by_cases hmem : k ∈ rest.map Prod.fst
        · simp [hmem, h, hk, hk2, dictGet_dictSet]
        · simp [hmem, h, hk, hk2, dictGet_dictSet]
      | none =>
        by_cases hmem : k ∈ rest.map Prod.fst
        · simp [hmem, h, hk, hk2]
        · simp [hmem, h, hk, hk2]

/-- The merged dict built by dict(ChainMap(ms)) has exactly the ChainMap's
lookup behaviour: for every key the first underlying mapping wins. -/
theorem pyDictOfChainMap_get {α : Type} (maps : List (List (String × α))) (k : String) :
    dictGet (pyDictOfChainMap maps) k = chainMapGet maps k := by
  rw [pyDictOfChainMap, pyDictFold_get]
  cases h : chainMapGet maps k with
  | some v =>
    have hmem : k ∈ (chainMapIterDict maps).map Prod.fst := by
      rw [← dictGet_isSome_iff_mem, chainMapIterDict_isSome, h]
      rfl
    simp [hmem]
  | none => simp [dictGet]

theorem chainMapGet_append {α : Type} (a b : List (List (String × α))) (k : String) :
    chainMapGet (a ++ b) k =
      match chainMapGet a k with
      | some v => some v
      | none => chainMapGet b k := by
  induction a with
  | nil => simp [chainMapGet]
  | cons m rest ih =>
    simp only [List.cons_append, chainMapGet]
    cases dictGet m k with
    | some v => rfl
    | none => exact ih

/-- C1 counterexample: merging the validation result mapping
valid_f1 = 0.8 with the test result mapping valid_f1 = 0.75, test_f1 = 0.75
through results = dict(ChainMap(*val_results, *test_results)) keeps the
validation value 0.8 for the colliding key valid_f1 — ChainMap lookup gives
the FIRST mapping precedence — so the test value 0.75 does not overwrite the
validation value, contradicting the claimed last-writer-wins merge in the
order validation-then-test. -/
theorem after_fit_merge_counterexample :
    dictGet
        (afterFitResults [[("valid_f1", (0.8 : ℚ))]]
          [[("valid_f1", (0.75 : ℚ)), ("test_f1", (0.75 : ℚ))]]) "valid_f1" =
      some (0.8 : ℚ) ∧ (0.8 : ℚ) ≠ (0.75 : ℚ) := by
  constructor
  · rw [afterFitResults, pyDictOfChainMap_get]
    simp [chainMapGet, dictGet]
  · norm_num

/-- C1 amended: after fit, when a best checkpoint exists, the validation and
test result mappings are merged into one flat mapping in the order
validation-then-test, but key collisions are resolved FIRST writer wins
(ChainMap semantics): every key bound by the validation results keeps its
validation value in the merged mapping, and keys the validation results do
not bind take their value from the test results. -/
theorem after_fit_merge_first_writer_wins {α : Type}
    (val test : List (List (String × α))) (k : String) :
    (∀ v, chainMapGet val k = some v →
      dictGet (afterFitResults val test) k = some v) ∧
    (chainMapGet val k = none →
      dictGet (afterFitResults val test) k = chainMapGet test k) := by
  have hbase : dictGet (afterFitResults val test) k = chainMapGet (val ++ test) k := by
    rw [afterFitResults, pyDictOfChainMap_get]
  constructor
  · intro v hv
    rw [hbase, chainMapGet_append, hv]
  · intro hv
    rw [hbase, chainMapGet_append, hv]

theorem after_fit_merge_first_writer_wins_witness :
    chainMapGet [[("valid_f1", (80 : ℤ))]] "valid_f1" = some 80 ∧
    dictGet
        (afterFitResults [[("valid_f1", (80 : ℤ))]]
          [[("valid_f1", (75 : ℤ)), ("test_f1", (75 : ℤ))]]) "valid_f1" =
      some 80 :=
  ⟨by decide,
    (after_fit_merge_first_writer_wins
        [[("valid_f1", (80 : ℤ))]]
        [[("valid_f1", (75 : ℤ)), ("test_f1", (75 : ℤ))]] "valid_f1").1 80
      (by decide)⟩

/-! ## Python exceptions

The exception values the embedded code can raise. -/

/-- Python exceptions reachable from the embedded code paths. -/
inductive PyErr where
  | typeError (msg : String)
  | keyError (key : String)
  | valueError (msg : String)
  | runtimeError (msg : String)
  | attributeError (msg : String)
  | jsonDecodeError (msg : String) (doc : String) (pos : Nat)
deriving DecidableEq

/-! ## before_fit: config sharing and run naming (src/lit_cli.py lines 57-99)

The dynamic state before_fit reads is captured explicitly: the type names and
optional version attributes of the model and the datamodule, the current
clock reading, the PL_EXP_VERSION environment variable, and whether the
trainer logger is a LoggerCollection / has a _version attribute.  Python
str.lower is modelled for ASCII characters, which covers every string the
orchestrator builds from class names and configuration fingerprints. -/

/-- Python str.lower for one ASCII character. -/
def pyCharLower (c : Char) : Char :=
  if 'A' ≤ c ∧ c ≤ 'Z' then Char.ofNat (c.toNat + 32) else c

/-- Python str.lower restricted to ASCII strings. -/
def pyLower (s : String) : String :=
  String.mk (s.toList.map pyCharLower)

/-- One clock reading: the fields datetime.now() provides that the strftime
format string of before_fit uses. -/
structure Timestamp where
  month : Nat
  day : Nat
  hour : Nat
  minute : Nat
  second : Nat

/-- Zero-padded two-digit decimal rendering, as strftime produces for each
field of the format. -/
def pad2 (n : Nat) : String :=
  if n < 10 then "0" ++ toString n else toString n

/-- datetime.now().strftime of the MMDD-HHMMSS format (src/lit_cli.py
line 80). -/
def strftimeMMDDHHMMSS (t : Timestamp) : String :=
  pad2 t.month ++ pad2 t.day ++ "-" ++ pad2 t.hour ++ pad2 t.minute ++ pad2 t.second

/-- What before_fit reads from the datamodule: its type name and its version
attribute when it has one. -/
structure DMInfo where
  typeName : String
  version : Option String

/-- The dynamic inputs of before_fit's naming step. -/
structure BeforeFitEnv where
  modelTypeName : String
  modelVersion : Option String
  datamodule : Option DMInfo
  now : Timestamp
  envExpVersion : Option String
  loggerIsCollection : Bool
  loggerHasVersionAttr : Bool

/-- Python truthiness of os.getenv-style optional strings: None and the empty
string are falsy. -/
def optStrTruthy : Option String → Bool
  | none => false
  | some s => s != ""

/-- exp_name derivation (src/lit_cli.py lines 69-70): model type name, an
underscore, then the datamodule type name (empty when there is no
datamodule). -/
def computeExpName (e : BeforeFitEnv) : String :=
  e.modelTypeName ++ "_" ++
    (match e.datamodule with
      | some dm => dm.typeName
      | none => "")

/-- Version derivation before the timestamp (src/lit_cli.py lines 72-77):
version starts as None, becomes the datamodule's version attribute when the
datamodule has one, and the model's version is appended with += when the
model has one — a TypeError when the base is still None. -/
def computeVersionBase (e : BeforeFitEnv) : Except PyErr (Option String) :=
  let base : Option String :=
    match e.datamodule with
    | some dm => dm.version
    | none => none
  match e.modelVersion with
  | none => Except.ok base
  | some mv =>
    match base with
    | none =>
      Except.error (PyErr.typeError "unsupported operand types for +=: NoneType and str")
    | some b => Except.ok (some (b ++ "_" ++ mv))

/-- Version derivation including the timestamp suffix (src/lit_cli.py lines
79-81): the timestamp is appended exactly when the version so far is truthy
(not None and not the empty string). -/
def computeVersion (e : BeforeFitEnv) : Except PyErr (Option String) :=
  match computeVersionBase e with
  | Except.error err => Except.error err
  | Except.ok none => Except.ok none
  | Except.ok (some s) =>
    if s = "" then Except.ok (some s)
    else Except.ok (some (s ++ "_" ++ strftimeMMDDHHMMSS e.now))

/-- The values before_fit assigns to the logger (src/lit_cli.py lines 86-93):
none when the logger is a LoggerCollection; otherwise _name receives the
lower-cased exp_name, and _version receives the lower-cased version exactly
when the logger has a _version attribute, the version is truthy, and
os.getenv of PL_EXP_VERSION is falsy. -/
structure LoggerAssignments where
  name : Option String
  version : Option String
deriving DecidableEq

/-- Logger naming effect of before_fit (src/lit_cli.py lines 83-93). -/
def beforeFitLoggerAssignments (e : BeforeFitEnv) : Except PyErr LoggerAssignments :=
  match computeVersion e with
  | Except.error err => Except.error err
  | Except.ok version =>
    if e.loggerIsCollection then Except.ok ⟨none, none⟩
    else
      Except.ok
        ⟨some (pyLower (computeExpName e)),
          if e.loggerHasVersionAttr && optStrTruthy version &&
              !optStrTruthy e.envExpVersion
          then version.map pyLower
          else none⟩

theorem append_underscore_ne_empty (a b : String) : a ++ "_" ++ b ≠ "" := by
  intro h
  have hlen := congrArg String.length h
  have h1 : ("_" : String).length = 1 := rfl
  have h0 : ("" : String).length = 0 := rfl
  rw [String.length_append, String.length_append, h1, h0] at hlen
  omega

/-- C3: before fit, with a datamodule present that carries a version
attribute, the experiment name is the model type name, an underscore, and the
datamodule type name; the computed version is the datamodule's version,
suffixed with an underscore and the model's version when the model has one,
suffixed with an underscore and the MMDD-HHMMSS timestamp exactly when the
string built so far is non-empty; when the logger is not a collection the
lower-cased experiment name is assigned to it, and the lower-cased version is
assigned exactly when the logger has a version attribute, the version is
truthy, and the PL_EXP_VERSION environment override is not set — so a set
override suppresses the computed version write. -/
theorem before_fit_naming (e : BeforeFitEnv) (dm : DMInfo) (dv : String)
    (h1 : e.datamodule = some dm) (h2 : dm.version = some dv) :
    computeExpName e = e.modelTypeName ++ "_" ++ dm.typeName ∧
    computeVersion e =
      Except.ok (some
        (let core := dv ++ (match e.modelVersion with
            | some mv => "_" ++ mv
            | none => "")
         if core = "" then core else core ++ "_" ++ strftimeMMDDHHMMSS e.now)) ∧
    (e.loggerIsCollection = false →
      beforeFitLoggerAssignments e =
        Except.ok
          ⟨some (pyLower (e.modelTypeName ++ "_" ++ dm.typeName)),
            let core := dv ++ (match e.modelVersion with
              | some mv => "_" ++ mv
              | none => "")
            if e.loggerHasVersionAttr && !(core == "") && !optStrTruthy e.envExpVersion
            then some (pyLower (core ++ "_" ++ strftimeMMDDHHMMSS e.now))
            else none⟩) := by
  have hcore : computeVersionBase e =
      Except.ok (some (dv ++ (match e.modelVersion with
        | some mv => "_" ++ mv
        | none => ""))) := by
    cases hm : e.modelVersion with
    | none => simp [computeVersionBase, h1, h2, hm]
    | some mv => simp [computeVersionBase, h1, h2, hm, String.append_assoc]
  have hver : computeVersion e =
      Except.ok (some
        (let core := dv ++ (match e.modelVersion with
            | some mv => "_" ++ mv
            | none => "")
         if core = "" then core else core ++ "_" ++ strftimeMMDDHHMMSS e.now)) := by
    rw [computeVersion, hcore]
    by_cases hc : dv ++ (match e.modelVersion with
        | some mv => "_" ++ mv
        | none => "") = "" <;> simp [hc]
  refine ⟨by simp [computeExpName, h1], hver, ?_⟩
  intro hcol
  rw [beforeFitLoggerAssignments, hver]
  simp only [hcol, if_false, Bool.false_eq_true]
  have hname : pyLower (computeExpName e) =
      pyLower (e.modelTypeName ++ "_" ++ dm.typeName) := by
    simp [computeExpName, h1]
  by_cases hc : dv ++ (match e.modelVersion with
      | some mv => "_" ++ mv
      | none => "") = ""
  · simp [hc, hname, optStrTruthy]
  · have hne : dv ++ (match e.modelVersion with
        | some mv => "_" ++ mv
        | none => "") ++ "_" ++ strftimeMMDDHHMMSS e.now ≠ "" := by
      have := append_underscore_ne_empty
        (dv ++ (match e.modelVersion with
          | some mv => "_" ++ mv
          | none => "")) (strftimeMMDDHHMMSS e.now)
      simpa using this
    simp [hc, hname, optStrTruthy, hne]

/-- Demonstration input for before_fit naming: the run-naming scenario of the
specification. -/
def beforeFitDemoEnv : BeforeFitEnv :=
  ⟨"MMTSMatcher", some "1e-05",
    some ⟨"AliDataModule", some "electronics_500_True_False_32"⟩,
    ⟨10, 12, 1, 2, 3⟩, none, false, true⟩

theorem before_fit_naming_witness :
    computeExpName beforeFitDemoEnv = "MMTSMatcher_AliDataModule" ∧
    computeVersion beforeFitDemoEnv =
      Except.ok (some "electronics_500_True_False_32_1e-05_1012-010203") ∧
    beforeFitLoggerAssignments beforeFitDemoEnv =
      Except.ok
        ⟨some "mmtsmatcher_alidatamodule",
          some "electronics_500_true_false_32_1e-05_1012-010203"⟩ := by
  have h := before_fit_naming beforeFitDemoEnv
    ⟨"AliDataModule", some "electronics_500_True_False_32"⟩
    "electronics_500_True_False_32" rfl rfl
  refine ⟨?_, ?_, ?_⟩
  · rw [h.1]
    decide
  · rw [h.2.1]
    simp only [Except.ok.injEq]
    decide
  · rw [h.2.2 rfl]
    simp only [Except.ok.injEq, LoggerAssignments.mk.injEq]
    exact ⟨by decide, by decide⟩

/-- C10: the pre-fit version computation raises a TypeError when the model
has a version attribute while the datamodule is absent or lacks one (the
model version is concatenated onto a None base), and it succeeds exactly when
the model has no version or the datamodule supplies one. -/
theorem compute_version_totality :
    computeVersion
        ⟨"MMTSMatcher", some "1e-05", none, ⟨1, 1, 0, 0, 0⟩, none, false, true⟩ =
      Except.error
        (PyErr.typeError "unsupported operand types for +=: NoneType and str") ∧
    ∀ e : BeforeFitEnv,
      (∃ v, computeVersion e = Except.ok v) ↔
        (e.modelVersion = none ∨
          ∃ dm dv, e.datamodule = some dm ∧ dm.version = some dv) := by
  refine ⟨rfl, ?_⟩
  intro e
  cases hm : e.modelVersion with
  | none =>
    constructor
    · intro _
      exact Or.inl rfl
    · intro _
      cases hd : e.datamodule with
      | none => exact ⟨none, by simp [computeVersion, computeVersionBase, hm, hd]⟩
      | some dm =>
        cases hv : dm.version with
        | none =>
          exact ⟨none, by simp [computeVersion, computeVersionBase, hm, hd, hv]⟩
        | some dv =>
          by_cases hc : dv = ""
          · exact ⟨some dv, by simp [computeVersion, computeVersionBase, hm, hd, hv, hc]⟩
          · exact ⟨some (dv ++ "_" ++ strftimeMMDDHHMMSS e.now),
              by simp [computeVersion, computeVersionBase, hm, hd, hv, hc]⟩
  | some mv =>
    cases hd : e.datamodule with
    | none =>
      constructor
      · rintro ⟨v, hv2⟩
        simp [computeVersion, computeVersionBase, hm, hd] at hv2
      · rintro (h | ⟨dm, dv, hdm, hdv⟩)
        · cases h
        · cases hdm
    | some dm =>
      cases hv : dm.version with
      | none =>
        constructor
        · rintro ⟨v, hv2⟩
          simp [computeVersion, computeVersionBase, hm, hd, hv] at hv2
        · rintro (h | ⟨dm2, dv, hdm, hdv⟩)
          · cases h
          · injection hdm with hdm2
            subst hdm2
            rw [hv] at hdv
            cases hdv
      | some dv =>
        constructor
        · intro _
          exact Or.inr ⟨dm, dv, rfl, hv⟩
        · intro _
          have hne : dv ++ "_" ++ mv ≠ "" := append_underscore_ne_empty dv mv
          exact ⟨some (dv ++ "_" ++ mv ++ "_" ++ strftimeMMDDHHMMSS e.now),
            by simp [computeVersion, computeVersionBase, hm, hd, hv, hne]⟩

/-! ## before_fit config sharing (src/lit_cli.py lines 57-65)

The dynamic attribute state of the model and the datamodule is a function
from attribute name to optional value: hasattr is isSome, getattr reads the
value, setattr updates the function at one name. -/

/-- Dynamic attribute state of a Python object. -/
def AttrMap (V : Type) : Type := String → Option V

/-- setattr(obj, a, v). -/
def setattrF {V : Type} (obj : AttrMap V) (a : String) (v : V) : AttrMap V :=
  fun x => if x = a then some v else obj x

/-- One iteration of the sharing loop for one attribute name (src/lit_cli.py
lines 60-65): copy model to datamodule when only the model has the attribute,
then copy datamodule to model when only the datamodule has it — the second
test reads the datamodule state the first step may just have written. -/
def shareAttr {V : Type} (model dm : AttrMap V) (attr : String) :
    AttrMap V × AttrMap V :=
  let dm2 :=
    match model attr, dm attr with
    | some v, none => setattrF dm attr v
    | _, _ => dm
  let model2 :=
    match dm2 attr, model attr with
    | some v, none => setattrF model attr v
    | _, _ => model
  (model2, dm2)

/-- The whole sharing loop over the configured shared-attribute list. -/
def shareAttrs {V : Type} (model dm : AttrMap V) (attrs : List String) :
    AttrMap V × AttrMap V :=
  attrs.foldl (fun p attr => shareAttr p.1 p.2 attr) (model, dm)

/-- Joint effect of one sharing step at the processed attribute, as a
function of the two original values. -/
def resolveAttr {V : Type} : Option V → Option V → Option V × Option V
  | some v, none => (some v, some v)
  | none, some v => (some v, some v)
  | mv, dv => (mv, dv)

theorem resolveAttr_idem {V : Type} (x y : Option V) :
    resolveAttr (resolveAttr x y).1 (resolveAttr x y).2 = resolveAttr x y := by
  cases x <;> cases y <;> rfl

theorem shareAttr_at {V : Type} (m d : AttrMap V) (a : String) :
    ((shareAttr m d a).1 a, (shareAttr m d a).2 a) = resolveAttr (m a) (d a) := by
  cases hm : m a <;> cases hd : d a <;>
    simp [shareAttr, resolveAttr, setattrF, hm, hd]

theorem shareAttr_other {V : Type} (m d : AttrMap V) (a b : String) (h : a ≠ b) :
    (shareAttr m d b).1 a = m a ∧ (shareAttr m d b).2 a = d a := by
  cases hm : m b <;> cases hd : d b <;>
    simp [shareAttr, setattrF, hm, hd, h]

theorem shareAttrs_at {V : Type} (attrs : List String) (m d : AttrMap V)
    (a : String) :
    ((shareAttrs m d attrs).1 a, (shareAttrs m d attrs).2 a) =
      if a ∈ attrs then resolveAttr (m a) (d a) else (m a, d a) := by
  induction attrs generalizing m d with
  | nil => simp [shareAttrs]
  | cons b rest ih =>
    have step : shareAttrs m d (b :: rest) =
        shareAttrs (shareAttr m d b).1 (shareAttr m d b).2 rest := by
      simp [shareAttrs]
    rw [step, ih]
    by_cases hab : a = b
    · subst hab
      have hres := shareAttr_at m d a
      have hm1 : (shareAttr m d a).1 a = (resolveAttr (m a) (d a)).1 := by
        rw [← hres]
      have hd1 : (shareAttr m d a).2 a = (resolveAttr (m a) (d a)).2 := by
        rw [← hres]
      by_cases hmem : a ∈ rest
      · rw [if_pos hmem, if_pos (by simp), hm1, hd1, resolveAttr_idem]
      · rw [if_neg hmem, if_pos (by simp), hm1, hd1]
    · have h1 := shareAttr_other m d a b hab
      rw [h1.1, h1.2]
      by_cases hmem : a ∈ rest
      · rw [if_pos hmem, if_pos (by simp [hmem])]
      · rw [if_neg hmem, if_neg (by simp [hab, hmem])]

/-- C4: for every attribute name in the shared-attribute list, after the
pre-fit config-sharing loop: when exactly one of the model and the datamodule
had the attribute, both have its original value afterwards; when both already
had it, neither value is changed. -/
theorem share_attrs_spec {V : Type} (attrs : List String) (m d : AttrMap V)
    (a : String) (h : a ∈ attrs) :
    (∀ v, m a = some v → d a = none →
      (shareAttrs m d attrs).1 a = some v ∧ (shareAttrs m d attrs).2 a = some v) ∧
    (∀ v, d a = some v → m a = none →
      (shareAttrs m d attrs).1 a = some v ∧ (shareAttrs m d attrs).2 a = some v) ∧
    (∀ v w, m a = some v → d a = some w →
      (shareAttrs m d attrs).1 a = some v ∧ (shareAttrs m d attrs).2 a = some w) := by
  have key := shareAttrs_at attrs m d a
  rw [if_pos h] at key
  refine ⟨?_, ?_, ?_⟩
  · intro v hm hd
    rw [hm, hd] at key
    simpa [resolveAttr, Prod.ext_iff] using key
  · intro v hd hm
    rw [hm, hd] at key
    simpa [resolveAttr, Prod.ext_iff] using key
  · intro v w hm hd
    rw [hm, hd] at key
    simpa [resolveAttr, Prod.ext_iff] using key

theorem share_attrs_spec_witness :
    (shareAttrs (fun x => if x = "max_length" then some (256 : ℤ) else none)
        (fun _ => (none : Option ℤ)) ["max_length"]).1 "max_length" = some 256 ∧
    (shareAttrs (fun x => if x = "max_length" then some (256 : ℤ) else none)
        (fun _ => (none : Option ℤ)) ["max_length"]).2 "max_length" = some 256 :=
  (share_attrs_spec ["max_length"]
      (fun x => if x = "max_length" then some (256 : ℤ) else none)
      (fun _ => (none : Option ℤ)) "max_length" (by decide)).1 256 (by decide) rfl

/-! ## WDCDataModule.setup train/validation partition
(src/datamodules/wdcdatamodule.py lines 111-122) -/

/-- One row of the WDC training dataframe: the pair_id column and the rest of
the columns. -/
structure WDCRow (α : Type) where
  pair_id : Int
  payload : α
deriving DecidableEq

/-- training_df[~training_df["pair_id"].isin(validation_pair_id)]. -/
def wdcTrainRows {α : Type} (df : List (WDCRow α)) (validationPairId : List Int) :
    List (WDCRow α) :=
  df.filter (fun r => !(validationPairId.contains r.pair_id))

/-- training_df[training_df["pair_id"].isin(validation_pair_id)]. -/
def wdcValidRows {α : Type} (df : List (WDCRow α)) (validationPairId : List Int) :
    List (WDCRow α) :=
  df.filter (fun r => validationPairId.contains r.pair_id)

/-- C8: partitioning the corpus dataframe by held-out pair id yields a
validation subset of exactly the rows whose pair_id is held out and a
training subset of exactly the complement; the two subsets are disjoint and
together are a permutation of the corpus. -/
theorem wdc_partition_spec {α : Type} (df : List (WDCRow α)) (ids : List Int) :
    (∀ r, r ∈ wdcValidRows df ids ↔ r ∈ df ∧ r.pair_id ∈ ids) ∧
    (∀ r, r ∈ wdcTrainRows df ids ↔ r ∈ df ∧ r.pair_id ∉ ids) ∧
    (∀ r, r ∈ wdcTrainRows df ids → r ∉ wdcValidRows df ids) ∧
    (∀ r, r ∈ df ↔ r ∈ wdcTrainRows df ids ∨ r ∈ wdcValidRows df ids) ∧
    List.Perm (wdcTrainRows df ids ++ wdcValidRows df ids) df := by
  have hv : ∀ r : WDCRow α, r ∈ wdcValidRows df ids ↔ r ∈ df ∧ r.pair_id ∈ ids := by
    intro r
    simp [wdcValidRows, List.mem_filter]
  have ht : ∀ r : WDCRow α, r ∈ wdcTrainRows df ids ↔ r ∈ df ∧ r.pair_id ∉ ids := by
    intro r
    simp [wdcTrainRows, List.mem_filter]
  refine ⟨hv, ht, ?_, ?_, ?_⟩
  · intro r hrt hrv
    exact ((ht r).1 hrt).2 ((hv r).1 hrv).2
  · intro r
    constructor
    · intro hr
      by_cases hid : r.pair_id ∈ ids
      · exact Or.inr ((hv r).2 ⟨hr, hid⟩)
      · exact Or.inl ((ht r).2 ⟨hr, hid⟩)
    · intro hr
      rcases hr with hr | hr
      · exact ((ht r).1 hr).1
      · exact ((hv r).1 hr).1
  · have hperm := List.filter_append_perm
      (fun r : WDCRow α => !(ids.contains r.pair_id)) df
    have heq : df.filter (fun r : WDCRow α => !!(ids.contains r.pair_id)) =
        df.filter (fun r => ids.contains r.pair_id) := by
      simp [Bool.not_not]
    rw [wdcTrainRows, wdcValidRows, ← heq]
    exact hperm

theorem wdc_partition_spec_witness :
    (⟨1, (0 : ℤ)⟩ : WDCRow ℤ) ∈ wdcTrainRows [⟨1, 0⟩, ⟨2, 0⟩] [2] ∧
    (⟨1, (0 : ℤ)⟩ : WDCRow ℤ) ∉ wdcValidRows [⟨1, 0⟩, ⟨2, 0⟩] [2] :=
  ⟨by decide,
    (wdc_partition_spec [⟨1, (0 : ℤ)⟩, ⟨2, 0⟩] [2]).2.2.1 ⟨1, 0⟩ (by decide)⟩

/-! ## JSON values and batch collation (src/modules/mmtsmatcher.py lines 44-75) -/

/-- A parsed JSON value; numbers are restricted to the integers the corpus
records actually carry. -/
inductive Json where
  | null
  | bool (b : Bool)
  | num (n : Int)
  | str (s : String)
  | arr (elems : List Json)
  | obj (fields : List (String × Json))

instance : Inhabited Json := ⟨Json.null⟩

/-- Python value[k] for a parsed JSON value: a KeyError when the key is
missing, a TypeError when the value is not an object. -/
def jsonGetKey : Json → String → Except PyErr Json
  | Json.obj fields, k =>
    match dictGet fields k with
    | some v => Except.ok v
    | none => Except.error (PyErr.keyError k)
  | _, _ => Except.error (PyErr.typeError "value is not subscriptable by string keys")

/-- One entry of torch.LongTensor([...]): integers pass through, booleans
coerce, anything else is a TypeError. -/
def jsonToLong : Json → Except PyErr Int
  | Json.num n => Except.ok n
  | Json.bool b => Except.ok (if b then 1 else 0)
  | _ => Except.error (PyErr.typeError "LongTensor entries must be integers")

/-- x["label"] for one raw record, as the label extraction of collate_fn
reads it. -/
def getLabel (raw : Json) : Except PyErr Int :=
  match jsonGetKey raw "label" with
  | Except.ok v => jsonToLong v
  | Except.error e => Except.error e

/-- One dataset sample as the dataset adapters produce it: the two paired
texts, the per-sample image tensor list, and the raw record. -/
structure PySample (Img : Type) where
  texts : String × String
  images : List Img
  raw : Json

/-- The image-modality component of a collated batch: either the stacked
image tensors or the zero-width placeholder torch.Tensor(len(batch), 0). -/
inductive ModalTensor (Img : Type) where
  | stacked (imgs : List (List Img))
  | placeholder (batchLen : Nat)

/-- The collated batch: tokenizer output, image-modality tensor, label
vector, raw records. -/
structure CollateOut (Tok Img : Type) where
  inputs : Tok
  input_modals : ModalTensor Img
  labels : List Int
  raws : List Json

/-- A Python list comprehension over a fallible element computation: the
elements are computed left to right and the first exception propagates. -/
def mapExcept {ε α β : Type} (f : α → Except ε β) : List α → Except ε (List β)
  | [] => Except.ok []
  | x :: rest =>
    match f x with
    | Except.error e => Except.error e
    | Except.ok y =>
      match mapExcept f rest with
      | Except.error e => Except.error e
      | Except.ok ys => Except.ok (y :: ys)

/-- torch.stack of one sample's image list: a RuntimeError on an empty
list. -/
def torchStack {Img : Type} (imgs : List Img) : Except PyErr (List Img) :=
  if imgs.isEmpty then
    Except.error (PyErr.runtimeError "stack expects a non-empty TensorList")
  else Except.ok imgs

/-- torch.stack across the batch: every per-sample tensor must have the same
leading dimension (each image is a fixed 3x224x224 tensor, so shapes agree
exactly when the counts do). -/
def torchStackOuter {Img : Type} (stacked : List (List Img)) :
    Except PyErr (List (List Img)) :=
  match stacked with
  | [] => Except.error (PyErr.runtimeError "stack expects a non-empty TensorList")
  | s :: rest =>
    if rest.all (fun t => t.length == s.length) then Except.ok (s :: rest)
    else Except.error (PyErr.runtimeError "stack expects each tensor to be equal size")

/-- collate_fn (src/modules/mmtsmatcher.py lines 44-75).  The tokenizer is an
opaque collaborator taking the two sentence batches and the adjusted
max_length.  The branch on images[0] is Python list truthiness: the FIRST
sample's image list decides whether image stacking is attempted at all. -/
def collate_fn {Tok Img : Type}
    (tokenizer : List String → List String → Option Int → Tok)
    (max_length : Option Int) (num_image_embeds : Int)
    (batch : List (PySample Img)) : Except PyErr (CollateOut Tok Img) :=
  let texts := batch.map PySample.texts
  let images := batch.map PySample.images
  let raws := batch.map PySample.raw
  match mapExcept getLabel raws with
  | Except.error e => Except.error e
  | Except.ok labels =>
    match texts with
    | [] => Except.error (PyErr.valueError "not enough values to unpack")
    | t0 :: trest =>
      let sent1 := (t0 :: trest).map Prod.fst
      let sent2 := (t0 :: trest).map Prod.snd
      let maxLength2 := max_length.map (fun m => m - 2 * num_image_embeds - 1)
      let inputs := tokenizer sent1 sent2 maxLength2
      match images with
      | [] => Except.error (PyErr.valueError "not enough values to unpack")
      | i0 :: _ =>
        if i0.isEmpty then
          Except.ok ⟨inputs, ModalTensor.placeholder batch.length, labels, raws⟩
        else
          match mapExcept torchStack images with
          | Except.error e => Except.error e
          | Except.ok stacked =>
            match torchStackOuter stacked with
            | Except.error e => Except.error e
            | Except.ok s => Except.ok ⟨inputs, ModalTensor.stacked s, labels, raws⟩

theorem mapExcept_torchStack_error {Img : Type} (l : List (List Img))
    (h : ∃ x ∈ l, x = []) :
    mapExcept torchStack l =
      Except.error (PyErr.runtimeError "stack expects a non-empty TensorList") := by
  induction l with
  | nil => simp at h
  | cons x rest ih =>
    rcases h with ⟨y, hy, hy2⟩
    rcases List.mem_cons.1 hy with rfl | hmem
    · simp [mapExcept, torchStack, hy2]
    · by_cases hx : x = []
      · simp [mapExcept, torchStack, hx]
      · have hrec := ih ⟨y, hmem, hy2⟩
        simp [mapExcept, torchStack, hx, hrec]

/-- C2 counterexample: a batch whose first sample has no images and whose
second sample has one is inconsistently image-present, yet collate_fn
succeeds silently with the zero-width placeholder (images[0] is falsy, so the
stacking branch is never reached and the second sample's image is dropped);
no CollationError is raised — indeed no CollationError exists in the code. -/
theorem collate_inconsistent_counterexample :
    collate_fn (fun _ _ _ => ()) (none : Option Int) 1
        [(⟨("a", "b"), [], Json.obj [("label", Json.num 1)]⟩ : PySample Unit),
          ⟨("c", "d"), [()], Json.obj [("label", Json.num 0)]⟩] =
      Except.ok
        ⟨(), ModalTensor.placeholder 2, [1, 0],
          [Json.obj [("label", Json.num 1)], Json.obj [("label", Json.num 0)]]⟩ := rfl

/-- C2 amended: collate_fn surfaces no CollationError.  With every label
readable, inconsistent image presence within one batch is handled
asymmetrically by the truthiness test on the first sample's image list: when
the first sample has images, any sample with an empty images list makes
collate_fn fail with the torch.stack RuntimeError; when the first sample has
no images, collate_fn succeeds with the zero-width placeholder and silently
ignores every other sample's images. -/
theorem collate_mixed_images {Tok Img : Type}
    (tokenizer : List String → List String → Option Int → Tok)
    (max_length : Option Int) (num_image_embeds : Int)
    (s0 : PySample Img) (srest : List (PySample Img)) (labels : List Int)
    (hlab : mapExcept getLabel ((s0 :: srest).map PySample.raw) = Except.ok labels) :
    (¬ s0.images.isEmpty = true →
      (∃ s ∈ s0 :: srest, s.images = []) →
      collate_fn tokenizer max_length num_image_embeds (s0 :: srest) =
        Except.error (PyErr.runtimeError "stack expects a non-empty TensorList")) ∧
    (s0.images.isEmpty = true →
      collate_fn tokenizer max_length num_image_embeds (s0 :: srest) =
        Except.ok
          ⟨tokenizer (((s0 :: srest).map PySample.texts).map Prod.fst)
              (((s0 :: srest).map PySample.texts).map Prod.snd)
              (max_length.map (fun m => m - 2 * num_image_embeds - 1)),
            ModalTensor.placeholder (s0 :: srest).length, labels,
            (s0 :: srest).map PySample.raw⟩) := by
  constructor
  · intro h0 hmix
    have hstack : mapExcept torchStack ((s0 :: srest).map PySample.images) =
        Except.error (PyErr.runtimeError "stack expects a non-empty TensorList") := by
      apply mapExcept_torchStack_error
      rcases hmix with ⟨s, hs, hse⟩
      exact ⟨s.images, List.mem_map_of_mem PySample.images hs, hse⟩
    rw [collate_fn, hlab]
    simp only [List.map_cons]
    rw [List.map_cons] at hstack
    rw [hstack]
    simp [h0]
  · intro h0
    rw [collate_fn, hlab]
    simp only [List.map_cons]
    simp [h0]

theorem collate_mixed_images_witness :
    collate_fn (fun _ _ _ => ()) (none : Option Int) 1
        [(⟨("a", "b"), [()], Json.obj [("label", Json.num 1)]⟩ : PySample Unit),
          ⟨("c", "d"), [], Json.obj [("label", Json.num 0)]⟩] =
      Except.error (PyErr.runtimeError "stack expects a non-empty TensorList") :=
  (collate_mixed_images (fun _ _ _ => ()) (none : Option Int) 1
      (⟨("a", "b"), [()], Json.obj [("label", Json.num 1)]⟩ : PySample Unit)
      [⟨("c", "d"), [], Json.obj [("label", Json.num 0)]⟩] [1, 0] rfl).1
    (by simp)
    ⟨⟨("c", "d"), [], Json.obj [("label", Json.num 0)]⟩, by simp, rfl⟩

/-! ## Test-phase error capture (src/modules/mmtsmatcher.py lines 152-177)

The probabilities common_step computes are softmax outputs; their entry type
is abstracted to any linearly ordered type, which is all argmax uses.  The
serialization call json.dumps(row[i], ensure_ascii=False, indent=2,
cls=NumpyEncoder) is modelled concretely below: indent=2 pretty-prints every
non-empty object or array across several lines, two spaces per nesting level,
with the item separator comma-newline and the key separator colon-space; with
ensure_ascii=False the characters are kept literal apart from the standard
escapes (the NumpyEncoder only widens the accepted input types and does not
change the rendering of the JSON values modelled here).  The error-cases file
is opened, written, and closed within the batch step, so the step is modelled
as a pure function from the file content before the batch to the file content
after it. -/

/-- A run of spaces, as the indent machinery of json.dumps emits. -/
def spaces (n : Nat) : String := String.mk (List.replicate n ' ')

/-- The rendering of one character inside a JSON string literal with
ensure_ascii=False: the standard short escapes, everything else literal. -/
def jsonEscapeChar (c : Char) : List Char :=
  if c = '"' then ['\\', '"']
  else if c = '\\' then ['\\', '\\']
  else if c = '\n' then ['\\', 'n']
  else if c = '\t' then ['\\', 't']
  else if c = '\r' then ['\\', 'r']
  else [c]

/-- The rendering of a JSON string literal. -/
def jsonDumpsString (s : String) : String :=
  "\"" ++ String.mk (s.toList.flatMap jsonEscapeChar) ++ "\""

mutual

/-- Fuelled worker for json.dumps(value, ensure_ascii=False, indent=2):
render one value at nesting depth d.  Every recursive call moves to a
structurally smaller value, so fuel larger than twice the value size never
runs out. -/
def jsonDumpsF : Nat → Nat → Json → String
  | 0, _, _ => ""
  | fuel + 1, d, v =>
    match v with
    | Json.null => "null"
    | Json.bool b => if b then "true" else "false"
    | Json.num n => toString n
    | Json.str s => jsonDumpsString s
    | Json.arr [] => "[]"
    | Json.arr (x :: xs) =>
      "[\n" ++ jsonDumpsArrItemsF fuel (d + 1) x xs ++ "\n" ++ spaces (2 * d) ++ "]"
    | Json.obj [] => "\x7b\x7d"
    | Json.obj (kv :: kvs) =>
      "\x7b\n" ++ jsonDumpsObjItemsF fuel (d + 1) kv kvs ++ "\n" ++
        spaces (2 * d) ++ "\x7d"

/-- The comma-newline separated items of a non-empty array, each on its own
indented line. -/
def jsonDumpsArrItemsF : Nat → Nat → Json → List Json → String
  | 0, _, _, _ => ""
  | fuel + 1, d, x, xs =>
    spaces (2 * d) ++ jsonDumpsF fuel d x ++
      (match xs with
        | [] => ""
        | y :: ys => ",\n" ++ jsonDumpsArrItemsF fuel d y ys)

/-- The comma-newline separated members of a non-empty object, each on its
own indented line with the colon-space key separator. -/
def jsonDumpsObjItemsF : Nat → Nat → String × Json → List (String × Json) → String
  | 0, _, _, _ => ""
  | fuel + 1, d, kv, kvs =>
    spaces (2 * d) ++ jsonDumpsString kv.1 ++ ": " ++ jsonDumpsF fuel d kv.2 ++
      (match kvs with
        | [] => ""
        | y :: ys => ",\n" ++ jsonDumpsObjItemsF fuel d y ys)

end

mutual

/-- The number of value nodes of a JSON value. -/
def jsonSize : Json → Nat
  | Json.null => 1
  | Json.bool _ => 1
  | Json.num _ => 1
  | Json.str _ => 1
  | Json.arr xs => 1 + jsonSizeArr xs
  | Json.obj kvs => 1 + jsonSizeObj kvs

/-- Total node count of array items. -/
def jsonSizeArr : List Json → Nat
  | [] => 0
  | x :: xs => jsonSize x + jsonSizeArr xs

/-- Total node count of object member values. -/
def jsonSizeObj : List (String × Json) → Nat
  | [] => 0
  | kv :: kvs => jsonSize kv.2 + jsonSizeObj kvs

end

/-- json.dumps(value, ensure_ascii=False, indent=2): the fuel bound of twice
the node count plus two covers the deepest possible recursion. -/
def jsonDumpsIndent2 (v : Json) : String :=
  jsonDumpsF (2 * jsonSize v + 2) 0 v

/-- Worker for torch.argmax over one row: on ties the earliest index is
kept, so the result is the index of the first maximal entry. -/
def argmaxAux {Prob : Type} [LinearOrder Prob] (best : Prob) (bestIdx : Nat)
    (i : Nat) : List Prob → Nat
  | [] => bestIdx
  | x :: xs =>
    if best < x then argmaxAux x i (i + 1) xs else argmaxAux best bestIdx (i + 1) xs

/-- torch.argmax along the class dimension for one row of probabilities. -/
def argmaxRow {Prob : Type} [LinearOrder Prob] : List Prob → Nat
  | [] => 0
  | x :: xs => argmaxAux x 0 1 xs

/-- torch.ne(preds, labels), elementwise. -/
def torchNe (preds labels : List Int) : List Bool :=
  List.zipWith (fun p l => p != l) preds labels

/-- torch.nonzero of a boolean mask: the indices of the true entries in
increasing order. -/
def torchNonzero (mask : List Bool) : List Nat :=
  (List.range mask.length).filter (fun i => mask.getD i false)

/-- The error capture of common_step (src/modules/mmtsmatcher.py lines
163-175): in the test step, predictions are the row-wise argmax of the
probabilities, the error indices are the nonzero entries of
torch.ne(preds, labels), and the raw records at those indices, each rendered
by json.dumps(..., ensure_ascii=False, indent=2) followed by one newline, are
appended to the error-cases file. -/
def common_step_error_file {Prob : Type} [LinearOrder Prob]
    (step : String)
    (probs : List (List Prob)) (labels : List Int) (row : List Json)
    (file : String) : String :=
  if step = "test" then
    let preds := probs.map (fun p => (argmaxRow p : Int))
    let errors := torchNonzero (torchNe preds labels)
    let error_cases :=
      errors.map (fun i => jsonDumpsIndent2 (row.getD i Json.null) ++ "\n")
    file ++ String.join error_cases
  else file

theorem torchNe_getD (preds labels : List Int) (i : Nat)
    (h1 : i < preds.length) (h2 : i < labels.length) :
    (torchNe preds labels).getD i false = (preds.getD i 0 != labels.getD i 0) := by
  induction preds generalizing labels i with
  | nil => simp at h1
  | cons p ps ih =>
    cases labels with
    | nil => simp at h2
    | cons l ls =>
      cases i with
      | zero => simp [torchNe]
      | succ n =>
        have hn1 : n < ps.length := by simpa using h1
        have hn2 : n < ls.length := by simpa using h2
        simpa [torchNe] using ih ls n hn1 hn2

theorem argmax_map_getD {Prob : Type} [LinearOrder Prob]
    (probs : List (List Prob)) (i : Nat) (h : i < probs.length) :
    (probs.map (fun p => (argmaxRow p : Int))).getD i 0 =
      (argmaxRow (probs.getD i []) : Int) := by
  induction probs generalizing i with
  | nil => simp at h
  | cons p ps ih =>
    cases i with
    | zero => simp
    | succ n =>
      have hn : n < ps.length := by simpa using h
      simpa using ih n hn

/-- C5 counterexample: for the test batch with predictions [1,0,1] vs labels
[1,1,1], exactly the record at index 1 is appended — but not as one
JSON-serialized record per line: json.dumps(..., indent=2) pretty-prints the
single two-field record across four lines (the appended text contains four
newlines where a one-record-per-line discipline would produce exactly
one). -/
theorem error_log_per_line_counterexample :
    common_step_error_file "test" [[(3 : ℤ), 7], [6, 4], [2, 8]] [1, 1, 1]
        [Json.obj [("id", Json.num 0), ("label", Json.num 1)],
          Json.obj [("id", Json.num 1), ("label", Json.num 1)],
          Json.obj [("id", Json.num 2), ("label", Json.num 1)]] "" =
      "\x7b\n  \"id\": 1,\n  \"label\": 1\n\x7d\n" ∧
    "\x7b\n  \"id\": 1,\n  \"label\": 1\n\x7d\n".toList.count '\n' = 4 ∧
    (4 : Nat) ≠ 1 := by
  refine ⟨rfl, by decide, by decide⟩

/-- C5 amended: during the test phase only, for every batch, exactly the raw
records at the indices where the argmax prediction differs from the label are
appended to the error-cases file, each serialized by json.dumps with indent=2
and followed by one newline — a multi-line pretty-printed block per record
(every non-empty object record starts with a brace on its own line), not one
record per line — and the whole file update happens within that batch step
(the content after the step is the content before plus exactly those
blocks); in every other phase the file is untouched. -/
theorem common_step_error_capture {Prob : Type} [LinearOrder Prob]
    (probs : List (List Prob)) (labels : List Int)
    (row : List Json) (file : String)
    (hlen : probs.length = labels.length) :
    common_step_error_file "test" probs labels row file =
      file ++ String.join
        (((List.range labels.length).filter
            (fun i => (argmaxRow (probs.getD i []) : Int) != labels.getD i 0)).map
          (fun i => jsonDumpsIndent2 (row.getD i Json.null) ++ "\n")) ∧
    (∀ kv kvs, ∃ rest : String,
      jsonDumpsIndent2 (Json.obj (kv :: kvs)) = "\x7b\n" ++ rest) ∧
    (∀ step, step ≠ "test" →
      common_step_error_file step probs labels row file = file) := by
  refine ⟨?_, ?_, ?_⟩
  · rw [common_step_error_file, if_pos rfl]
    have hmask : (torchNe (probs.map (fun p => (argmaxRow p : Int))) labels).length =
        labels.length := by
      rw [torchNe, List.length_zipWith, List.length_map, hlen, Nat.min_self]
    have hfilter :
        (List.range labels.length).filter
            (fun i =>
              (torchNe (probs.map (fun p => (argmaxRow p : Int))) labels).getD i false) =
          (List.range labels.length).filter
            (fun i => (argmaxRow (probs.getD i []) : Int) != labels.getD i 0) := by
      apply List.filter_congr
      intro i hi
      have hlt : i < labels.length := List.mem_range.1 hi
      have hlt2 : i < (probs.map (fun p => (argmaxRow p : Int))).length := by
        rw [List.length_map, hlen]
        exact hlt
      rw [torchNe_getD _ _ _ hlt2 hlt,
        argmax_map_getD probs i (by rw [hlen]; exact hlt)]
    simp only [torchNonzero]
    rw [hmask, hfilter]
  · intro kv kvs
    refine ⟨jsonDumpsObjItemsF (2 * jsonSize (Json.obj (kv :: kvs)) + 1) (0 + 1)
        kv kvs ++ ("\n" ++ (spaces (2 * 0) ++ "\x7d")), ?_⟩
    have hfuel : 2 * jsonSize (Json.obj (kv :: kvs)) + 2 =
        (2 * jsonSize (Json.obj (kv :: kvs)) + 1) + 1 := rfl
    rw [jsonDumpsIndent2, hfuel]
    simp only [jsonDumpsF]
    simp [String.append_assoc]
  · intro step hstep
    rw [common_step_error_file, if_neg hstep]

theorem common_step_error_capture_witness :
    common_step_error_file "test"
        [[(3 : ℤ), 7], [6, 4], [2, 8]] [1, 1, 1]
        [Json.obj [("id", Json.num 0)], Json.obj [("id", Json.num 1)],
          Json.obj [("id", Json.num 2)]] "" = "\x7b\n  \"id\": 1\n\x7d\n" ∧
    common_step_error_file "valid"
        [[(3 : ℤ), 7], [6, 4], [2, 8]] [1, 1, 1]
        [Json.obj [("id", Json.num 0)], Json.obj [("id", Json.num 1)],
          Json.obj [("id", Json.num 2)]] "before" = "before" := by
  have h := common_step_error_capture
    [[(3 : ℤ), 7], [6, 4], [2, 8]] [1, 1, 1]
    [Json.obj [("id", Json.num 0)], Json.obj [("id", Json.num 1)],
      Json.obj [("id", Json.num 2)]] "" rfl
  have h2 := common_step_error_capture
    [[(3 : ℤ), 7], [6, 4], [2, 8]] [1, 1, 1]
    [Json.obj [("id", Json.num 0)], Json.obj [("id", Json.num 1)],
      Json.obj [("id", Json.num 2)]] "before" rfl
  refine ⟨?_, h2.2.2 "valid" (by decide)⟩
  rw [h.1]
  decide

/-! ## json.loads (the parsing collaborator of ALIDataset.__getitem__)

A structural model of Python json.loads over the JSON subset the corpus
records use (objects, arrays, strings with the common escapes, integers,
booleans, null).  Error positions are absolute character indices into the
parsed document, as json.JSONDecodeError reports them; the failing-parse
message "Expecting value" matches Python verbatim, the other messages are
kept punctuation-free.  The parser is fuelled; every recursive call is
preceded by at least one consumed character, so fuel equal to the document
length plus one never runs out. -/

/-- A json.JSONDecodeError before it is attached to its document: message
and absolute character position. -/
structure JsonErr where
  msg : String
  pos : Nat
deriving DecidableEq

/-- Skip JSON whitespace, tracking the absolute position. -/
def skipWs : List Char → Nat → List Char × Nat
  | c :: cs, p =>
    if c = ' ' ∨ c = '\t' ∨ c = '\n' ∨ c = '\r' then skipWs cs (p + 1) else (c :: cs, p)
  | [], p => ([], p)

/-- Parse the body of a string literal after its opening quote. -/
def parseStringBody (openPos : Nat) :
    List Char → Nat → List Char → Except JsonErr (String × List Char × Nat)
  | [], _, _ => Except.error ⟨"Unterminated string starting at", openPos⟩
  | c :: cs, p, acc =>
    if c = '"' then Except.ok (String.mk acc.reverse, cs, p + 1)
    else if c = '\\' then
      match cs with
      | [] => Except.error ⟨"Unterminated string starting at", openPos⟩
      | e :: cs2 =>
        if e = '"' then parseStringBody openPos cs2 (p + 2) ('"' :: acc)
        else if e = '\\' then parseStringBody openPos cs2 (p + 2) ('\\' :: acc)
        else if e = '/' then parseStringBody openPos cs2 (p + 2) ('/' :: acc)
        else if e = 'n' then parseStringBody openPos cs2 (p + 2) ('\n' :: acc)
        else if e = 't' then parseStringBody openPos cs2 (p + 2) ('\t' :: acc)
        else if e = 'r' then parseStringBody openPos cs2 (p + 2) ('\r' :: acc)
        else Except.error ⟨"Invalid escape", p⟩
    else parseStringBody openPos cs (p + 1) (c :: acc)

/-- Take a maximal run of decimal digits. -/
def takeDigits : List Char → Nat → List Char × List Char × Nat
  | c :: cs, p =>
    if c.isDigit then
      let r := takeDigits cs (p + 1)
      (c :: r.1, r.2.1, r.2.2)
    else ([], c :: cs, p)
  | [], p => ([], [], p)

/-- Decimal digits to a natural number. -/
def digitsToNat (ds : List Char) : Nat :=
  ds.foldl (fun n c => 10 * n + (c.toNat - 48)) 0

mutual

/-- Parse one JSON value starting at the given suffix and absolute
position. -/
def parseJsonValue : Nat → List Char → Nat → Except JsonErr (Json × List Char × Nat)
  | 0, _, p => Except.error ⟨"Expecting value", p⟩
  | fuel + 1, l, p =>
    let s := skipWs l p
    match s.1 with
    | [] => Except.error ⟨"Expecting value", s.2⟩
    | c :: cs =>
      if c = '{' then
        let s2 := skipWs cs (s.2 + 1)
        match s2.1 with
        | '}' :: r => Except.ok (Json.obj [], r, s2.2 + 1)
        | '"' :: r =>
          match parseStringBody s2.2 r (s2.2 + 1) [] with
          | Except.error e => Except.error e
          | Except.ok (key, r2, p3) =>
            let s3 := skipWs r2 p3
            match s3.1 with
            | ':' :: r3 =>
              match parseJsonValue fuel r3 (s3.2 + 1) with
              | Except.error e => Except.error e
              | Except.ok (v, r4, p4) => parseJsonObjRest fuel r4 p4 [(key, v)]
            | _ => Except.error ⟨"Expecting colon delimiter", s3.2⟩
        | _ =>
          Except.error ⟨"Expecting property name enclosed in double quotes", s2.2⟩
      else if c = '[' then
        let s2 := skipWs cs (s.2 + 1)
        match s2.1 with
        | ']' :: r => Except.ok (Json.arr [], r, s2.2 + 1)
        | _ =>
          match parseJsonValue fuel s2.1 s2.2 with
          | Except.error e => Except.error e
          | Except.ok (v, r2, p3) => parseJsonArrRest fuel r2 p3 [v]
      else if c = '"' then
        match parseStringBody s.2 cs (s.2 + 1) [] with
        | Except.error e => Except.error e
        | Except.ok (str, r, p2) => Except.ok (Json.str str, r, p2)
      else if c = 't' then
        if cs.take 3 = [ 'r', 'u', 'e'] then
          Except.ok (Json.bool true, cs.drop 3, s.2 + 4)
        else Except.error ⟨"Expecting value", s.2⟩
      else if c = 'f' then
        if cs.take 4 = [ 'a', 'l', 's', 'e'] then
          Except.ok (Json.bool false, cs.drop 4, s.2 + 5)
        else Except.error ⟨"Expecting value", s.2⟩
      else if c = 'n' then
        if cs.take 3 = [ 'u', 'l', 'l'] then
          Except.ok (Json.null, cs.drop 3, s.2 + 4)
        else Except.error ⟨"Expecting value", s.2⟩
      else if c = '-' then
        match takeDigits cs (s.2 + 1) with
        | ([], _, _) => Except.error ⟨"Expecting value", s.2⟩
        | (ds, rest, p2) => Except.ok (Json.num (-(digitsToNat ds : Int)), rest, p2)
      else if c.isDigit then
        let r := takeDigits (c :: cs) s.2
        Except.ok (Json.num (digitsToNat r.1), r.2.1, r.2.2)
      else Except.error ⟨"Expecting value", s.2⟩

/-- Parse the continuation of an array after one parsed item. -/
def parseJsonArrRest : Nat → List Char → Nat → List Json →
    Except JsonErr (Json × List Char × Nat)
  | 0, _, p, _ => Except.error ⟨"Expecting comma delimiter", p⟩
  | fuel + 1, l, p, acc =>
    let s := skipWs l p
    match s.1 with
    | ']' :: r => Except.ok (Json.arr acc, r, s.2 + 1)
    | ',' :: r =>
      match parseJsonValue fuel r (s.2 + 1) with
      | Except.error e => Except.error e
      | Except.ok (v, r2, p2) => parseJsonArrRest fuel r2 p2 (acc ++ [v])
    | _ => Except.error ⟨"Expecting comma delimiter", s.2⟩

/-- Parse the continuation of an object after one parsed member. -/
def parseJsonObjRest : Nat → List Char → Nat → List (String × Json) →
    Except JsonErr (Json × List Char × Nat)
  | 0, _, p, _ => Except.error ⟨"Expecting comma delimiter", p⟩
  | fuel + 1, l, p, acc =>
    let s := skipWs l p
    match s.1 with
    | '}' :: r => Except.ok (Json.obj acc, r, s.2 + 1)
    | ',' :: r =>
      let s2 := skipWs r (s.2 + 1)
      match s2.1 with
      | '"' :: r2 =>
        match parseStringBody s2.2 r2 (s2.2 + 1) [] with
        | Except.error e => Except.error e
        | Except.ok (key, r3, p3) =>
          let s3 := skipWs r3 p3
          match s3.1 with
          | ':' :: r4 =>
            match parseJsonValue fuel r4 (s3.2 + 1) with
            | Except.error e => Except.error e
            | Except.ok (v, r5, p5) => parseJsonObjRest fuel r5 p5 (acc ++ [(key, v)])
          | _ => Except.error ⟨"Expecting colon delimiter", s3.2⟩
      | _ =>
        Except.error ⟨"Expecting property name enclosed in double quotes", s2.2⟩
    | _ => Except.error ⟨"Expecting comma delimiter", s.2⟩

end

/-- json.loads: parse one value and require only whitespace after it. -/
def jsonLoads (s : String) : Except JsonErr Json :=
  match parseJsonValue (s.length + 1) s.toList 0 with
  | Except.error e => Except.error e
  | Except.ok (v, rest, p) =>
    let s2 := skipWs rest p
    match s2.1 with
    | [] => Except.ok v
    | _ => Except.error ⟨"Extra data", s2.2⟩

/-- The line number json.JSONDecodeError derives from a document and an
absolute position: newlines before the position, plus one. -/
def jsonLineno (doc : String) (pos : Nat) : Nat :=
  (doc.toList.take pos).count '\n' + 1

/-- The index of the last newline before the position, if any. -/
def lastNewlineIdx (l : List Char) : Option Nat :=
  ((l.enum.filter (fun q => q.2 == '\n')).map Prod.fst).getLast?

/-- The column number json.JSONDecodeError derives from a document and an
absolute position. -/
def jsonColno (doc : String) (pos : Nat) : Nat :=
  match lastNewlineIdx (doc.toList.take pos) with
  | none => pos + 1
  | some j => pos - j

/-- str(json.JSONDecodeError): the message rendered with the line, column
and character position inside the parsed document — the document is the one
line handed to json.loads, never the corpus file, and no file name
appears. -/
def jsonDecodeErrorStr (msg doc : String) (pos : Nat) : String :=
  msg ++ ": line " ++ toString (jsonLineno doc pos) ++ " column " ++
    toString (jsonColno doc pos) ++ " (char " ++ toString pos ++ ")"

/-! ## ALIDataset (src/datamodules/alidatamodule.py lines 20-78)

The corpus file is modelled as its list of lines (each line carrying its
trailing newline, as both file iteration and linecache produce them).  The
image resolution of the use_image branch (path existence check, PIL open or
white fallback, transform pipeline) is file-system and tensor I/O and enters
as the opaque resolve collaborator applied to the id field. -/

/-- linecache.getline: line numbers are 1-based; any line number outside
[1, line count] yields the empty string. -/
def linecacheGetline (lines : List String) (lineno : Int) : String :=
  if 1 ≤ lineno ∧ lineno ≤ (lines.length : Int) then (lines.getD (lineno - 1).toNat "")
  else ""

/-- The line counting of ALIDataset.__init__: sum(1 for _ in f). -/
def aliNumLines (lines : List String) : Nat :=
  lines.foldl (fun n _ => n + 1) 0

/-- ALIDataset.__len__ returns the stored line count. -/
def aliLen (lines : List String) : Nat := aliNumLines lines

/-- The sample dict ALIDataset.__getitem__ builds: raw record, two texts,
zero or two images. -/
structure ALISample (Img : Type) where
  raw : Json
  texts : List Json
  images : List Img

/-- The per-side text of ALIDataset.__getitem__ (lines 53-60): the title
field, extended by the serialized attribute pairs when use_pv_pairs is set
(the lookup raises KeyError on a missing field, serialize_pv_pairs needs a
string, and += needs a string title). -/
def aliTextOf (raw : Json) (use_pv_pairs : Bool) (suffix : String) :
    Except PyErr Json :=
  match jsonGetKey raw ("title_" ++ suffix) with
  | Except.error e => Except.error e
  | Except.ok t =>
    if use_pv_pairs then
      match jsonGetKey raw ("pv_pairs_" ++ suffix) with
      | Except.error e => Except.error e
      | Except.ok pvj =>
        match pvj with
        | Json.str pvs =>
          match t with
          | Json.str ts =>
            Except.ok (Json.str (ts ++ " " ++ serialize_pv_pairs pvs))
          | _ => Except.error (PyErr.typeError "can only concatenate str to str")
        | _ => Except.error (PyErr.attributeError "value has no attribute split")
    else Except.ok t

/-- One side of ALIDataset.__getitem__: the text, then the resolved image
when use_image is set. -/
def aliSide {Img : Type} (raw : Json) (use_pv_pairs use_image : Bool)
    (resolve : Json → Img) (suffix : String) : Except PyErr (Json × List Img) :=
  match aliTextOf raw use_pv_pairs suffix with
  | Except.error e => Except.error e
  | Except.ok t =>
    if use_image then
      match jsonGetKey raw ("id_" ++ suffix) with
      | Except.error e => Except.error e
      | Except.ok idv => Except.ok (t, [resolve idv])
    else Except.ok (t, [])

/-- ALIDataset.__getitem__ (lines 39-75): fetch line index+1 through
linecache, parse it with json.loads, then build texts and images for the
left and the right side. -/
def aliGetItem {Img : Type} (lines : List String) (use_image use_pv_pairs : Bool)
    (resolve : Json → Img) (index : Int) : Except PyErr (ALISample Img) :=
  let line := linecacheGetline lines (index + 1)
  match jsonLoads line with
  | Except.error e => Except.error (PyErr.jsonDecodeError e.msg line e.pos)
  | Except.ok raw =>
    match aliSide raw use_pv_pairs use_image resolve "left" with
    | Except.error e => Except.error e
    | Except.ok (tl, il) =>
      match aliSide raw use_pv_pairs use_image resolve "right" with
      | Except.error e => Except.error e
      | Except.ok (tr, ir) => Except.ok ⟨raw, [tl, tr], il ++ ir⟩

theorem linecacheGetline_valid (lines : List String) (i : Nat)
    (hi : i < lines.length) :
    linecacheGetline lines ((i : Int) + 1) = lines.getD i "" := by
  rw [linecacheGetline, if_pos (by constructor <;> omega)]
  congr 1
  omega

theorem linecacheGetline_invalid (lines : List String) (index : Int)
    (h : ¬ (0 ≤ index ∧ index < (lines.length : Int))) :
    linecacheGetline lines (index + 1) = "" := by
  rw [linecacheGetline, if_neg (by omega)]

theorem aliNumLines_eq (lines : List String) : aliNumLines lines = lines.length := by
  have main : ∀ (l : List String) (n : Nat), l.foldl (fun m _ => m + 1) n = n + l.length := by
    intro l
    induction l with
    | nil => intro n; simp
    | cons x xs ih =>
      intro n
      rw [List.foldl_cons, ih]
      simp
      omega
  rw [aliNumLines, main]
  simp

/-- C6 counterexample: fetching index 5 from a one-line corpus file does not
fail with a CorpusAccessError identifying the file and the file line number —
no CorpusAccessError exists in the code.  linecache returns the empty string
for the out-of-range line, json.loads raises a JSONDecodeError, and its
rendered message is exactly "Expecting value: line 1 column 1 (char 0)": it
names neither the corpus file (here data.json) nor the out-of-range file line
(6), only the position inside the empty document. -/
theorem corpus_access_error_counterexample :
    aliGetItem ["\x7b\"title_left\": \"a\", \"title_right\": \"b\"\x7d\n"] false false
        (fun _ => ()) 5 =
      Except.error (PyErr.jsonDecodeError "Expecting value" "" 0) ∧
    jsonDecodeErrorStr "Expecting value" "" 0 =
      "Expecting value: line 1 column 1 (char 0)" ∧
    findSep "data.json".toList
      "Expecting value: line 1 column 1 (char 0)".toList = none ∧
    findSep "6".toList
      "Expecting value: line 1 column 1 (char 0)".toList = none := by
  refine ⟨rfl, by decide, by decide, by decide⟩

/-- C6 amended: for every index outside [0, len) the fetch fails with the
json.JSONDecodeError "Expecting value" at character 0 of the empty document
(linecache silently returns an empty string), and for every line that fails
to parse the fetch fails with that line's json.JSONDecodeError; in both cases
the error carries only the message, the parsed line and the position within
it — there is no CorpusAccessError and the error does not identify the
corpus file. -/
theorem ali_getitem_error_behaviour {Img : Type} (lines : List String)
    (use_image use_pv_pairs : Bool) (resolve : Json → Img) (index : Int) :
    (¬ (0 ≤ index ∧ index < (lines.length : Int)) →
      aliGetItem lines use_image use_pv_pairs resolve index =
        Except.error (PyErr.jsonDecodeError "Expecting value" "" 0)) ∧
    (∀ e, jsonLoads (linecacheGetline lines (index + 1)) = Except.error e →
      aliGetItem lines use_image use_pv_pairs resolve index =
        Except.error
          (PyErr.jsonDecodeError e.msg (linecacheGetline lines (index + 1)) e.pos)) := by
  constructor
  · intro h
    have hg := linecacheGetline_invalid lines index h
    simp only [aliGetItem]
    rw [hg]
    rfl
  · intro e he
    simp only [aliGetItem]
    rw [he]

theorem ali_getitem_error_behaviour_witness :
    aliGetItem ["\x7b\"title_left\": \"a\", \"title_right\": \"b\"\x7d\n"] false false
        (fun _ => ()) (-1) =
      Except.error (PyErr.jsonDecodeError "Expecting value" "" 0) ∧
    aliGetItem ["oops\n"] false false (fun _ => ()) 0 =
      Except.error (PyErr.jsonDecodeError "Expecting value" "oops\n" 0) :=
  ⟨(ali_getitem_error_behaviour ["\x7b\"title_left\": \"a\", \"title_right\": \"b\"\x7d\n"]
      false false (fun _ => ()) (-1)).1 (by omega),
    (ali_getitem_error_behaviour ["oops\n"] false false (fun _ => ()) 0).2
      ⟨"Expecting value", 0⟩ rfl⟩

/-- C7: the dataset length equals the file's line count, and for every valid
index i, fetching sample i reads exactly line i+1 of the file (1-based via
linecache) and returns its JSON parse as the raw record, together with the
two title texts and no images when both optional modalities are off. -/
theorem ali_getitem_valid {Img : Type} (lines : List String) (resolve : Json → Img)
    (i : Nat) (raw tl tr : Json)
    (hi : i < lines.length)
    (hparse : jsonLoads (lines.getD i "") = Except.ok raw)
    (htl : jsonGetKey raw "title_left" = Except.ok tl)
    (htr : jsonGetKey raw "title_right" = Except.ok tr) :
    linecacheGetline lines ((i : Int) + 1) = lines.getD i "" ∧
    aliGetItem lines false false resolve (i : Int) = Except.ok ⟨raw, [tl, tr], []⟩ ∧
    aliLen lines = lines.length := by
  have hg := linecacheGetline_valid lines i hi
  refine ⟨hg, ?_, by rw [aliLen, aliNumLines_eq]⟩
  simp only [aliGetItem]
  rw [hg, hparse]
  have e1 : ("title_" ++ "left" : String) = "title_left" := rfl
  have e2 : ("title_" ++ "right" : String) = "title_right" := rfl
  simp only [aliSide, aliTextOf, e1, e2, htl, htr]
  simp

theorem ali_getitem_valid_witness :
    aliGetItem ["\x7b\"title_left\": \"a\", \"title_right\": \"b\", \"label\": 1\x7d"]
        false false (fun _ => ()) 0 =
      Except.ok
        ⟨Json.obj
            [("title_left", Json.str "a"), ("title_right", Json.str "b"),
              ("label", Json.num 1)],
          [Json.str "a", Json.str "b"], []⟩ ∧
    aliLen ["\x7b\"title_left\": \"a\", \"title_right\": \"b\", \"label\": 1\x7d"] = 1 := by
  have h := ali_getitem_valid
    ["\x7b\"title_left\": \"a\", \"title_right\": \"b\", \"label\": 1\x7d"]
    (fun _ => ()) 0
    (Json.obj
      [("title_left", Json.str "a"), ("title_right", Json.str "b"),
        ("label", Json.num 1)])
    (Json.str "a") (Json.str "b") (by decide) rfl rfl rfl
  exact ⟨h.2.1, h.2.2⟩
